import Mathlib

/-!
Verification of the WhoFi CSI processing server (`docker/csi_processor.py`).

The development shallowly embeds the `CSIProcessor` class.  Python `float`
values produced by numpy arithmetic are modelled by `PyFloat`: numpy scalar
division by zero emits a runtime warning and evaluates to `nan`/`inf` instead
of raising `ZeroDivisionError`, so a zero denominator is modelled by the
non-finite marker `PyFloat.nonfin` rather than by an exception.  JSON payload
numbers are modelled by `ℚ` (decimal literals), distances by `ℝ` since the
path-loss formula `10 ** ((A - avg) / (10 * n))` is transcendental.
Branches of the source that are reached by a caught exception are marked in
comments; the caught state is returned there, matching the `try`/`except`
blocks in `on_message`, `calculate_position` and `trilaterate`.
-/

/-- A Python/numpy float value: either a finite real or a non-finite value
(`nan`, `inf` or `-inf`; the distinction is irrelevant to every claim, both
serialize without error via `json.dumps` with its default `allow_nan=True`). -/
inductive PyFloat where
  | fin (x : ℝ)
  | nonfin
deriving Inhabited

/-- numpy float division: a zero denominator produces a non-finite value
(`0/0 = nan`, `c/0 = ±inf`) together with a `RuntimeWarning`; no exception is
raised.  A finite denominator divides as usual. -/
noncomputable def pyDiv (a b : ℝ) : PyFloat :=
  if b = 0 then PyFloat.nonfin else PyFloat.fin (a / b)

/-- One buffered CSI measurement, the dict built in `process_csi_data`
(lines 65-71): fields `timestamp`, `rssi`, `csi_data`, `channel`, `rate`. -/
structure Meas where
  timestamp : ℚ
  rssi : ℚ
  csi_data : List ℚ
  channel : ℚ
  rate : ℚ
deriving DecidableEq

/-- A decoded JSON object payload.  Each field the server reads is present
(`some`) or absent (`none`); an absent field read with `data[key]` raises
`KeyError`, one read with `data.get(key, default)` yields the default. -/
structure JObj where
  timestamp : Option ℚ := none
  rssi : Option ℚ := none
  csi_data : Option (List ℚ) := none
  channel : Option ℚ := none
  rate : Option ℚ := none
  packets : Option ℚ := none
  enabled : Option Bool := none
  uptime : Option ℚ := none
deriving DecidableEq

/-- An incoming MQTT message: its topic string and the result of
`json.loads(msg.payload.decode())`; `none` models an undecodable payload
(the call raises and the handler's `except` catches). -/
structure Msg where
  topic : String
  payload : Option JObj
deriving DecidableEq

/-- The per-node stats record stored by `update_node_stats` (lines 173-178). -/
structure NodeStats where
  packets : ℚ
  enabled : Bool
  uptime : ℚ
  last_seen : String
deriving DecidableEq

/-- A JSON value appearing in a published payload. -/
inductive PVal where
  | num (v : PyFloat)
  | str (s : String)

/-- The whole processor state: `node_positions` (static registry from the
config), `nodes` (stats records), `csi_buffer` (per-node measurement deques,
insertion-ordered like a Python dict), and the list of MQTT messages
published so far, each a `(topic, payload)` pair.  `now` stands for the
environment-supplied `datetime.now()` reading. -/
structure State where
  node_positions : List (String × ℝ × ℝ)
  nodes : List (String × NodeStats)
  csi_buffer : List (String × List Meas)
  published : List (String × List (String × PVal))
  now : String

/-- Association-list lookup, modelling Python dict indexing (dict keys are
unique; first match returns the stored value). -/
def lookupA {α : Type} (l : List (String × α)) (k : String) : Option α :=
  match l with
  | [] => none
  | (k2, v) :: rest => if k2 = k then some v else lookupA rest k

/-- Association-list store, modelling Python dict assignment: an existing key
keeps its position and gets the new value, a new key is appended at the end
(insertion order). -/
def updAssoc {α : Type} (l : List (String × α)) (k : String) (v : α) : List (String × α) :=
  match l with
  | [] => [(k, v)]
  | (k2, w) :: rest => if k2 = k then (k2, v) :: rest else (k2, w) :: updAssoc rest k v

/-- The last `n` elements of a list in order, modelling the Python slice
`l[-n:]` (the whole list when it is shorter than `n`). -/
def lastN {α : Type} (n : ℕ) (l : List α) : List α :=
  l.drop (l.length - n)

/-- `deque(maxlen=100).append`: the new element goes to the right end and the
result is truncated to the most recent 100 entries (FIFO eviction of the
oldest; nothing is ever rejected). -/
def dequePush (buf : List Meas) (m : Meas) : List Meas :=
  let b := buf ++ [m]
  b.drop (b.length - 100)

/-- Python `topic.split('/')` on a list of characters. -/
def splitChars (l : List Char) : List (List Char) :=
  match l with
  | [] => [[]]
  | c :: t =>
    let r := splitChars t
    if c = '/' then [] :: r
    else
      match r with
      | [] => [[c]]
      | h :: t2 => (c :: h) :: t2

/-- Python `topic.split('/')`. -/
def topicSplit (s : String) : List String :=
  (splitChars s.data).map String.mk

/-- The path-loss distance estimate computed inline in `calculate_position`
(lines 86-95): average the `rssi` field of the most recent 10 buffered
entries (`list(buffer)[-10:]`, `np.mean`), then
`distance = 10 ** ((A - avg_rssi) / (10 * n))` with `A = -30`, `n = 2.0`. -/
noncomputable def distFormula (buf : List Meas) : ℝ :=
  let recent := lastN 10 buf
  let rssis := recent.map (fun m => ((m.rssi : ℝ)))
  let avg := rssis.sum / (rssis.length : ℝ)
  let A : ℝ := -30
  let n : ℝ := 2
  (10 : ℝ) ^ ((A - avg) / (10 * n))

/-- Per-node distance estimate as an optional value: the loop in
`calculate_position` computes a distance only under `len(buffer) > 0`, so an
empty buffer yields no distance. -/
noncomputable def estimateDistance (buf : List Meas) : Option ℝ :=
  if buf.isEmpty then none else some (distFormula buf)

/-- The `distances` dict built by `calculate_position` (lines 83-96): iterate
`csi_buffer.items()` in insertion order and keep
`node_mac in self.node_positions and len(buffer) > 0` entries with their
estimated distances. -/
noncomputable def distList (reg : List (String × ℝ × ℝ)) (buf : List (String × List Meas)) :
    List (String × ℝ) :=
  buf.filterMap (fun p =>
    if (lookupA reg p.1).isSome && !p.2.isEmpty then
      (estimateDistance p.2).map (fun d => (p.1, d))
    else none)

/-- `trilaterate` (lines 107-138): take the first 3 keys of the `distances`
dict, look their positions up in `node_positions`, and solve the 2x2 linear
system by Cramer's rule.  A missing position (`KeyError`) or fewer than 3
distances (`IndexError`) is caught by the `except` and yields `None`.  The
divisions are numpy float divisions (`pyDiv`): a degenerate denominator
yields non-finite coordinates, not an exception. -/
noncomputable def trilaterate (reg : List (String × ℝ × ℝ)) (distances : List (String × ℝ)) :
    Option (PyFloat × PyFloat) :=
  match distances with
  | (n1, r1) :: (n2, r2) :: (n3, r3) :: _ =>
    match lookupA reg n1, lookupA reg n2, lookupA reg n3 with
    | some p1, some p2, some p3 =>
      let A := 2 * p2.1 - 2 * p1.1
      let B := 2 * p2.2 - 2 * p1.2
      let C := r1 ^ 2 - r2 ^ 2 - p1.1 ^ 2 + p2.1 ^ 2 - p1.2 ^ 2 + p2.2 ^ 2
      let D := 2 * p3.1 - 2 * p2.1
      let E := 2 * p3.2 - 2 * p2.2
      let F := r2 ^ 2 - r3 ^ 2 - p2.1 ^ 2 + p3.1 ^ 2 - p2.2 ^ 2 + p3.2 ^ 2
      some (pyDiv (C * E - F * B) (E * A - B * D), pyDiv (C * D - A * F) (B * D - A * E))
    | _, _, _ => none
  | _ => none

/-- Python's `round(x, 2)` lifted to `PyFloat` (`round` of `nan`/`inf` is
itself).  Tie-breaking of binary floats is irrelevant to every claim. -/
noncomputable def round2 : PyFloat → PyFloat
  | PyFloat.fin x => PyFloat.fin (((round (x * 100) : ℤ) : ℝ) / 100)
  | PyFloat.nonfin => PyFloat.nonfin

/-- `position[i] / 100.0` used for the device-tracker payload. -/
noncomputable def div100 : PyFloat → PyFloat
  | PyFloat.fin x => PyFloat.fin (x / 100)
  | PyFloat.nonfin => PyFloat.nonfin

/-- The position payload of `publish_position` (lines 142-148): keys `x`,
`y`, `timestamp`, `confidence`, `source`. -/
noncomputable def positionPayload (pos : PyFloat × PyFloat) (now : String) :
    List (String × PVal) :=
  [("x", PVal.num (round2 pos.1)),
   ("y", PVal.num (round2 pos.2)),
   ("timestamp", PVal.str now),
   ("confidence", PVal.num (PyFloat.fin 0.8)),
   ("source", PVal.str "csi_trilateration")]

/-- The device-tracker payload of `publish_position` (lines 157-162). -/
noncomputable def trackerPayload (pos : PyFloat × PyFloat) : List (String × PVal) :=
  [("latitude", PVal.num (div100 pos.2)),
   ("longitude", PVal.num (div100 pos.1)),
   ("gps_accuracy", PVal.num (PyFloat.fin 2)),
   ("source_type", PVal.str "router")]

/-- `publish_position` (lines 140-169): two MQTT publishes. -/
noncomputable def publish_position (st : State) (pos : PyFloat × PyFloat) : State :=
  { st with published := st.published ++
      [("homeassistant/sensor/whofi_position/state", positionPayload pos st.now),
       ("homeassistant/device_tracker/whofi_tracker/attributes", trackerPayload pos)] }

/-- `calculate_position` (lines 77-105): build the `distances` dict; with at
least 3 entries run `trilaterate` and publish any non-`None` result.  Its
`try`/`except` is never exercised: no operation in the body raises. -/
noncomputable def calculate_position (st : State) : State :=
  let distances := distList st.node_positions st.csi_buffer
  if 3 ≤ distances.length then
    match trilaterate st.node_positions distances with
    | some pos => publish_position st pos
    | none => st
  else st

/-- The four fields read with `data[key]` when the measurement record is
built (lines 66-70): all present, or the first absent one raises `KeyError`. -/
def reqFields (d : JObj) : Option (ℚ × ℚ × ℚ × ℚ) :=
  match d.timestamp, d.rssi, d.channel, d.rate with
  | some ts, some rs, some ch, some rt => some (ts, rs, ch, rt)
  | _, _, _, _ => none

/-- The well-formed-payload path of `process_csi_data`: create the
`defaultdict` entry if needed, append the measurement to the node's deque,
and run `calculate_position` when the buffer map has at least 3 keys
(line 74: `if len(self.csi_buffer) >= 3`). -/
def newBuf (buf : List (String × List Meas)) (mac : String) (m : Meas) :
    List (String × List Meas) :=
  let buf1 := if (lookupA buf mac).isSome then buf else buf ++ [(mac, [])]
  updAssoc buf1 mac (dequePush ((lookupA buf1 mac).getD []) m)

noncomputable def dataStep (st : State) (mac : String) (m : Meas) : State :=
  let st2 := { st with csi_buffer := newBuf st.csi_buffer mac m }
  if 3 ≤ st2.csi_buffer.length then calculate_position st2 else st2

/-- `process_csi_data` (lines 62-75).  Python evaluates
`self.csi_buffer[node_mac]` first: a `defaultdict` lookup that inserts an
empty deque for an unseen node before the record fields are read.  A missing
required field then raises `KeyError`, which `on_message` catches, so only
the freshly inserted empty entry survives (the `none` branch).  With all
fields present, `dataStep` appends and possibly solves. -/
noncomputable def process_csi_data (st : State) (mac : String) (data : JObj) : State :=
  match reqFields data with
  | some (ts, rs, ch, rt) => dataStep st mac ⟨ts, rs, data.csi_data.getD [], ch, rt⟩
  | none =>
    { st with csi_buffer :=
        if (lookupA st.csi_buffer mac).isSome then st.csi_buffer
        else st.csi_buffer ++ [(mac, [])] }

/-- `update_node_stats` (lines 171-178): store the stats record under the
node's key; `data.get` supplies defaults for absent fields. -/
def update_node_stats (st : State) (mac : String) (data : JObj) : State :=
  let rec1 : NodeStats := ⟨data.packets.getD 0, data.enabled.getD false, data.uptime.getD 0, st.now⟩
  { st with nodes := updAssoc st.nodes mac rec1 }

/-- `on_message` (lines 45-60): split the topic on `/`; with at least 4
segments decode the payload (an undecodable payload raises inside the `try`
and is caught, leaving the state unchanged) and dispatch on segment 3. -/
noncomputable def on_message (st : State) (m : Msg) : State :=
  let parts := topicSplit m.topic
  if 4 ≤ parts.length then
    match m.payload with
    | none => st
    | some data =>
      let mac := parts.getD 2 ""
      let dt := parts.getD 3 ""
      if dt = "data" then process_csi_data st mac data
      else if dt = "stats" then update_node_stats st mac data
      else st
  else st

/-- The ingest loop: MQTT delivers messages sequentially to `on_message`. -/
noncomputable def run (st : State) (msgs : List Msg) : State :=
  msgs.foldl on_message st

/-- The processor state right after `__init__` with registry `reg`. -/
def initState (reg : List (String × ℝ × ℝ)) (now : String) : State :=
  ⟨reg, [], [], [], now⟩

/-- The qualifying buffer entries relative to a registry: nodes present in
the registry with a non-empty buffer, in buffer (= first-data-arrival)
order.  These are exactly the entries `calculate_position` turns into
distances. -/
def qualFilter (reg : List (String × ℝ × ℝ)) (buf : List (String × List Meas)) :
    List (String × List Meas) :=
  buf.filter (fun p => (lookupA reg p.1).isSome && !p.2.isEmpty)

/-- The qualifying buffer entries of a state. -/
def qualEntries (st : State) : List (String × List Meas) :=
  qualFilter st.node_positions st.csi_buffer

/-- Number of qualifying nodes. -/
def qualCount (st : State) : ℕ :=
  (qualEntries st).length

/-- Modelled from the spec (section 4.2 wording, for comparison with the
source formula): the arithmetic mean of the `signal_strength` values of
exactly the most recent `min(10, size)` buffered measurements. -/
noncomputable def specMean (buf : List Meas) : ℝ :=
  let recent := lastN (min 10 buf.length) (buf.map (fun m => m.rssi))
  let sums : ℝ := ((recent.sum : ℚ) : ℝ)
  sums / (recent.length : ℝ)

/-- Modelled from the spec (claim C5 wording): `10 ^ ((-30 - m) / 20)` with
`m` the mean above. -/
noncomputable def specDistance (buf : List Meas) : ℝ :=
  (10 : ℝ) ^ (((-30 : ℝ) - specMean buf) / 20)

/-- A malformed transport message in the sense of the error-handling spec:
undecodable JSON, an unexpected (short) topic shape, or a data-kind payload
missing one of the required fields. -/
def Malformed (m : Msg) : Prop :=
  m.payload = none ∨
  (topicSplit m.topic).length < 4 ∨
  (∃ d, m.payload = some d ∧ (topicSplit m.topic).getD 3 "" = "data" ∧
    (d.timestamp = none ∨ d.rssi = none ∨ d.channel = none ∨ d.rate = none))

/-- A well-formed measurement used on concrete runs: `rssi = -50` gives the
path-loss exponent `(-30 - (-50)) / 20 = 1`, i.e. distance `10`. -/
def mW : Meas := ⟨0, -50, [], 1, 1⟩

/-- A fully-populated data payload matching `mW`. -/
def jFull : JObj :=
  { timestamp := some 0, rssi := some (-50), csi_data := some [], channel := some 1,
    rate := some 1 }

/-- A registry of three non-collinear anchors. -/
noncomputable def regW : List (String × ℝ × ℝ) := [("a", (0, 0)), ("b", (1, 0)), ("c", (0, 1))]

/-- A state where all three registered nodes hold one measurement (a solve
succeeds from here). -/
noncomputable def stW : State :=
  ⟨regW, [], [("a", [mW]), ("b", [mW]), ("c", [mW])], [], "T"⟩

/-- A registry of three collinear anchors on the x-axis. -/
noncomputable def regC : List (String × ℝ × ℝ) :=
  [("n1", (0, 0)), ("n2", (5, 0)), ("n3", (10, 0))]

/-- A state whose three registered, data-bearing nodes are collinear. -/
noncomputable def stC : State :=
  ⟨regC, [], [("n1", [mW]), ("n2", [mW]), ("n3", [mW])], [], "T"⟩

/-- The anchors of the symmetric test case: (0,0), (10,0), (5,10). -/
noncomputable def regT : List (String × ℝ × ℝ) :=
  [("n1", (0, 0)), ("n2", (10, 0)), ("n3", (5, 10))]

/-- Equal distances 7.07 to the three anchors of `regT`. -/
noncomputable def distT : List (String × ℝ) := [("n1", 7.07), ("n2", 7.07), ("n3", 7.07)]

/-- `n` distinct measurements for buffer-eviction runs. -/
def msSeq (n : ℕ) : List Meas :=
  List.map (fun (i : ℕ) => { timestamp := (i : ℚ), rssi := -50, csi_data := [], channel := 1, rate := 1 }) (List.range n)

/-! ## Buffer lemmas (capacity-100 deque) -/

theorem lastN_all {α : Type} {n : ℕ} {l : List α} (h : l.length ≤ n) : lastN n l = l := by
  unfold lastN
  rw [Nat.sub_eq_zero_of_le h, List.drop_zero]

theorem length_lastN {α : Type} (n : ℕ) (l : List α) : (lastN n l).length = min n l.length := by
  simp [lastN]
  omega

theorem length_dequePush (buf : List Meas) (m : Meas) :
    (dequePush buf m).length = min (buf.length + 1) 100 := by
  simp [dequePush]
  omega

theorem lastN_append_right {α : Type} {n : ℕ} (x : List α) {r : List α} (h : n ≤ r.length) :
    lastN n (x ++ r) = lastN n r := by
  unfold lastN
  rw [List.length_append]
  have he : x.length + r.length - n = x.length + (r.length - n) := by omega
  rw [he, List.drop_append]

theorem lastN_append_left {α : Type} {n : ℕ} (x : List α) {r : List α} (h : r.length ≤ n) :
    lastN n (x ++ r) = lastN (n - r.length) x ++ r := by
  unfold lastN
  rw [List.length_append]
  rw [List.drop_append_of_le_length (by omega)]
  congr 2
  omega

theorem lastN_lastN {α : Type} (a b : ℕ) (l : List α) :
    lastN a (lastN b l) = lastN (min a b) l := by
  unfold lastN
  rw [List.length_drop, List.drop_drop]
  congr 1
  omega

theorem lastN_lastN_append {α : Type} (n : ℕ) (x r : List α) :
    lastN n (lastN n x ++ r) = lastN n (x ++ r) := by
  by_cases h : n ≤ r.length
  · rw [lastN_append_right _ h, lastN_append_right _ h]
  · have h2 : r.length ≤ n := by omega
    rw [lastN_append_left _ h2, lastN_append_left _ h2, lastN_lastN,
      min_eq_left (by omega)]

theorem dequePush_eq_lastN (buf : List Meas) (m : Meas) :
    dequePush buf m = lastN 100 (buf ++ [m]) := rfl

theorem foldl_dequePush (ms : List Meas) :
    ∀ init : List Meas, init.length ≤ 100 →
      List.foldl dequePush init ms = lastN 100 (init ++ ms) := by
  induction ms with
  | nil =>
    intro init h
    rw [List.foldl_nil, List.append_nil, lastN_all h]
  | cons m ms ih =>
    intro init h
    rw [List.foldl_cons, ih _ (by rw [length_dequePush]; omega), dequePush_eq_lastN,
      lastN_lastN_append]
    simp

theorem self_mem_dequePush (buf : List Meas) (m : Meas) : m ∈ dequePush buf m := by
  unfold dequePush
  simp only [List.length_append, List.length_cons, List.length_nil]
  rw [List.drop_append_of_le_length (by omega)]
  simp

/-- C4: for any starting buffer within capacity and any sequence of more
than 100 appended measurements, the buffer afterwards holds exactly the last
100 measurements in arrival order; along the way it never exceeds capacity
100, and an append never rejects its measurement (the new element is always
present afterwards — the oldest entry is what gets evicted). -/
theorem buffer_fifo_capacity (init ms : List Meas) (h0 : init.length ≤ 100)
    (hN : 100 < ms.length) :
    List.foldl dequePush init ms = lastN 100 ms ∧
    (∀ pre : List Meas, (List.foldl dequePush init pre).length ≤ 100) ∧
    (∀ (buf : List Meas) (m : Meas), m ∈ dequePush buf m) := by
  refine ⟨?_, ?_, self_mem_dequePush⟩
  · rw [foldl_dequePush ms init h0, lastN_append_right _ (by omega)]
  · intro pre
    rw [foldl_dequePush pre init h0, length_lastN]
    omega

/-- Witness for C4 at a concrete run of 101 appends into an empty buffer. -/
theorem buffer_fifo_capacity_witness :
    List.foldl dequePush [] (msSeq 101) = lastN 100 (msSeq 101) :=
  (buffer_fifo_capacity [] (msSeq 101) (by decide) (by simp only [msSeq, List.length_map, List.length_range]; omega)).1

/-! ## Distance-estimator lemmas -/

theorem lastN_eq_min {α : Type} (n : ℕ) (l : List α) : lastN n l = lastN (min n l.length) l := by
  unfold lastN
  congr 1
  omega

theorem map_lastN {α β : Type} (f : α → β) (n : ℕ) (l : List α) :
    (lastN n l).map f = lastN n (l.map f) := by
  unfold lastN
  rw [List.map_drop, List.length_map]

theorem sum_map_rssi_cast (l : List Meas) :
    (l.map (fun m => ((m.rssi : ℝ)))).sum = (((l.map (fun m => m.rssi)).sum : ℚ) : ℝ) := by
  induction l with
  | nil => simp
  | cons m t ih =>
    simp only [List.map_cons, List.sum_cons, ih]
    push_cast
    ring

/-- C5: the per-node distance estimate is `10 ^ ((-30 - m) / 20)` where `m`
is the arithmetic mean of the `rssi` values of exactly the most recent
`min(10, size)` buffered measurements, and an empty buffer produces no
distance. -/
theorem estimate_distance_formula :
    estimateDistance [] = none ∧
    ∀ buf : List Meas, buf ≠ [] → estimateDistance buf = some (specDistance buf) := by
  refine ⟨rfl, ?_⟩
  intro buf hne
  rw [estimateDistance, if_neg (by simpa using hne)]
  have h1 : (lastN 10 buf).map (fun m => m.rssi) =
      lastN (min 10 buf.length) (buf.map (fun m => m.rssi)) := by
    rw [map_lastN, lastN_eq_min 10, List.length_map]
  simp only [distFormula, specDistance, specMean, ← h1, sum_map_rssi_cast, List.length_map]
  congr 1
  norm_num

/-- Witness for C5 on a one-measurement buffer. -/
theorem estimate_distance_formula_witness :
    estimateDistance [mW] = some (specDistance [mW]) :=
  estimate_distance_formula.2 [mW] (by simp)

/-! ## Published-payload shape -/

/-- C2 (amended): a publish appends exactly the position message and the
tracker message; the position payload consists of exactly the fields `x`,
`y`, `timestamp`, `confidence`, `source` — it carries no
`contributing_node_ids` field. -/
theorem publish_payload_fields (pos : PyFloat × PyFloat) (st : State) :
    (publish_position st pos).published =
      st.published ++
        [("homeassistant/sensor/whofi_position/state", positionPayload pos st.now),
         ("homeassistant/device_tracker/whofi_tracker/attributes", trackerPayload pos)] ∧
    (positionPayload pos st.now).map Prod.fst =
      ["x", "y", "timestamp", "confidence", "source"] ∧
    "contributing_node_ids" ∉ (positionPayload pos st.now).map Prod.fst := by
  refine ⟨rfl, rfl, ?_⟩
  have hk : (positionPayload pos st.now).map Prod.fst =
      ["x", "y", "timestamp", "confidence", "source"] := rfl
  rw [hk]
  decide

/-- C2 counterexample: the position result published after the successful
solve from `stW` has payload keys x, y, timestamp, confidence, source only —
in particular no `contributing_node_ids` field listing the three nodes used. -/
theorem publish_lacks_contributing_nodes :
    (calculate_position stW).published.map (fun e => e.2.map Prod.fst) =
      [["x", "y", "timestamp", "confidence", "source"],
       ["latitude", "longitude", "gps_accuracy", "source_type"]] ∧
    "contributing_node_ids" ∉
      ((calculate_position stW).published.getD 0 ("", [])).2.map Prod.fst := by
  constructor
  · rfl
  · have hk : ((calculate_position stW).published.getD 0 ("", [])).2.map Prod.fst =
        ["x", "y", "timestamp", "confidence", "source"] := rfl
    rw [hk]
    decide

/-! ## Dispatch lemmas for the message handler -/

theorem getD_of_getElem? {l : List String} {n : ℕ} {a : String} (h : l[n]? = some a) :
    l.getD n "" = a := by
  rw [List.getD_eq_getElem?_getD, h]
  rfl

theorem length_of_getElem? {l : List String} {n : ℕ} {a : String} (h : l[n]? = some a) :
    n + 1 ≤ l.length := by
  obtain ⟨hlt, _⟩ := List.getElem?_eq_some.1 h
  omega

theorem on_message_none (st : State) (m : Msg) (hp : m.payload = none) :
    on_message st m = st := by
  simp [on_message, hp]

theorem on_message_short (st : State) (m : Msg) (h : (topicSplit m.topic).length < 4) :
    on_message st m = st := by
  simp only [on_message]
  rw [if_neg (by omega)]

theorem on_message_data (st : State) (m : Msg) (d : JObj)
    (hp : m.payload = some d) (hdt : (topicSplit m.topic).getD 3 "" = "data")
    (hlen : 4 ≤ (topicSplit m.topic).length) :
    on_message st m = process_csi_data st ((topicSplit m.topic).getD 2 "") d := by
  simp only [on_message, hp, hdt]
  rw [if_pos hlen]
  simp

theorem on_message_stats (st : State) (m : Msg) (d : JObj)
    (hp : m.payload = some d) (hdt : (topicSplit m.topic).getD 3 "" = "stats")
    (hlen : 4 ≤ (topicSplit m.topic).length) :
    on_message st m = update_node_stats st ((topicSplit m.topic).getD 2 "") d := by
  simp only [on_message, hp, hdt]
  rw [if_pos hlen]
  simp

theorem lookupA_append {α : Type} (l1 l2 : List (String × α)) (k : String) :
    lookupA (l1 ++ l2) k = (lookupA l1 k).or (lookupA l2 k) := by
  induction l1 with
  | nil => simp [lookupA]
  | cons p t ih =>
    cases p with
    | mk k2 v =>
      by_cases hk : k2 = k
      · simp [lookupA, hk]
      · simp [lookupA, hk, ih]

theorem reqFields_eq_none (d : JObj)
    (h : d.timestamp = none ∨ d.rssi = none ∨ d.channel = none ∨ d.rate = none) :
    reqFields d = none := by
  unfold reqFields
  rcases d with ⟨ts, rs, cd, ch, rt, pk, en, up⟩
  cases ts <;> cases rs <;> cases ch <;> cases rt <;> simp_all

theorem process_csi_data_missing (st : State) (mac : String) (d : JObj)
    (h : reqFields d = none) :
    process_csi_data st mac d =
      { st with csi_buffer :=
          if (lookupA st.csi_buffer mac).isSome then st.csi_buffer
          else st.csi_buffer ++ [(mac, [])] } := by
  simp only [process_csi_data, h]

/-- C8: a stats-kind message leaves every node's measurement buffer and the
published results unchanged — its effect is confined to the stats records. -/
theorem stats_message_preserves_buffers (st : State) (m : Msg)
    (h : (topicSplit m.topic)[3]? = some "stats") :
    (on_message st m).csi_buffer = st.csi_buffer ∧
    (on_message st m).published = st.published := by
  have hlen : 4 ≤ (topicSplit m.topic).length := by
    have := length_of_getElem? h
    omega
  have hdt := getD_of_getElem? h
  cases hp : m.payload with
  | none =>
    rw [on_message_none st m hp]
    exact ⟨rfl, rfl⟩
  | some d =>
    rw [on_message_stats st m d hp hdt hlen]
    exact ⟨rfl, rfl⟩

/-- Witness for C8 on a concrete stats message. -/
theorem stats_message_preserves_buffers_witness :
    (on_message (initState regW "T") ⟨"whofi/csi/n1/stats", some {}⟩).csi_buffer =
      (initState regW "T").csi_buffer ∧
    (on_message (initState regW "T") ⟨"whofi/csi/n1/stats", some {}⟩).published =
      (initState regW "T").published :=
  stats_message_preserves_buffers _ _ (by decide)

/-- C9: a malformed message (undecodable payload, short topic, or data-kind
payload with a required field missing) is dropped: the handler's catch-all
`except` absorbs the raised exception, nothing is published, and no
measurement is stored in any node's buffer, so processing continues with the
next message.  (A field-missing data message may still leave a fresh empty
buffer entry behind — the subject of the C10 analysis — but that entry
carries no measurement.) -/
theorem malformed_message_dropped (st : State) (m : Msg) (h : Malformed m) :
    (on_message st m).published = st.published ∧
    ∀ (mac : String) (x : Meas),
      x ∈ (lookupA (on_message st m).csi_buffer mac).getD [] →
      x ∈ (lookupA st.csi_buffer mac).getD [] := by
  by_cases hlen : 4 ≤ (topicSplit m.topic).length
  · cases hp : m.payload with
    | none =>
      rw [on_message_none st m hp]
      exact ⟨rfl, fun mac x hx => hx⟩
    | some d =>
      rcases h with h | h | ⟨d2, hd2, hdt, hmiss⟩
      · rw [hp] at h
        exact absurd h (by simp)
      · omega
      · rw [hp] at hd2
        have hd : d2 = d := by injection hd2.symm
        subst hd
        rw [on_message_data st m d2 hp hdt hlen,
          process_csi_data_missing st _ d2 (reqFields_eq_none d2 hmiss)]
        refine ⟨rfl, ?_⟩
        intro mac x hx
        by_cases hin : (lookupA st.csi_buffer ((topicSplit m.topic).getD 2 "")).isSome
        · rw [if_pos hin] at hx
          exact hx
        · rw [if_neg hin, lookupA_append] at hx
          cases hb : lookupA st.csi_buffer mac with
          | some b =>
            rw [hb] at hx
            have hor : ∀ q : Option (List Meas), (some b).or q = some b := fun q => rfl
            rw [hor] at hx
            exact hx
          | none =>
            rw [hb] at hx
            have hor : ∀ q : Option (List Meas), Option.or none q = q := fun q => rfl
            rw [hor] at hx
            simp only [lookupA] at hx
            split at hx <;> simp at hx
  · rw [on_message_short st m (by omega)]
    exact ⟨rfl, fun mac x hx => hx⟩

/-- Witness for C9 on an undecodable payload. -/
theorem malformed_message_dropped_witness :
    (on_message (initState regW "T") ⟨"whofi/csi/n1/data", none⟩).published =
      (initState regW "T").published ∧
    ∀ (mac : String) (x : Meas),
      x ∈ (lookupA (on_message (initState regW "T") ⟨"whofi/csi/n1/data", none⟩).csi_buffer
        mac).getD [] →
      x ∈ (lookupA (initState regW "T").csi_buffer mac).getD [] :=
  malformed_message_dropped _ _ (Or.inl rfl)

/-- C10: a data-kind message for an unseen node whose JSON decodes but lacks
a required field still creates a new empty buffer entry for that node — the
`defaultdict` access happens before the failing field reads — and that entry
raises by one the distinct-node count that the `>= 3` trigger check of
`process_csi_data` is computed from; nothing is published by it. -/
theorem missing_field_creates_entry (st : State) (m : Msg) (mac : String) (d : JObj)
    (hp : m.payload = some d)
    (hmac : (topicSplit m.topic)[2]? = some mac)
    (hdt : (topicSplit m.topic)[3]? = some "data")
    (hmiss : d.timestamp = none ∨ d.rssi = none ∨ d.channel = none ∨ d.rate = none)
    (hfresh : lookupA st.csi_buffer mac = none) :
    (on_message st m).csi_buffer = st.csi_buffer ++ [(mac, [])] ∧
    (on_message st m).published = st.published ∧
    (on_message st m).csi_buffer.length = st.csi_buffer.length + 1 := by
  have hlen : 4 ≤ (topicSplit m.topic).length := by
    have := length_of_getElem? hdt
    omega
  have hmac2 : (topicSplit m.topic).getD 2 "" = mac := getD_of_getElem? hmac
  rw [on_message_data st m d hp (getD_of_getElem? hdt) hlen,
    process_csi_data_missing st _ d (reqFields_eq_none d hmiss), hmac2]
  refine ⟨by simp [hfresh], rfl, by simp [hfresh]⟩

/-- Witness for C10: a data message for unseen node `x` missing `timestamp`. -/
theorem missing_field_creates_entry_witness :
    (on_message (initState regW "T") ⟨"whofi/csi/x/data", some { rssi := some 1 }⟩).csi_buffer =
      (initState regW "T").csi_buffer ++ [("x", [])] ∧
    (on_message (initState regW "T") ⟨"whofi/csi/x/data", some { rssi := some 1 }⟩).published =
      (initState regW "T").published ∧
    (on_message (initState regW "T") ⟨"whofi/csi/x/data", some { rssi := some 1 }⟩).csi_buffer.length =
      (initState regW "T").csi_buffer.length + 1 :=
  missing_field_creates_entry _ _ "x" _ rfl (by decide) (by decide) (Or.inl rfl) rfl

/-! ## Quorum and selection lemmas -/

theorem distList_eq (reg : List (String × ℝ × ℝ)) (buf : List (String × List Meas)) :
    distList reg buf = (qualFilter reg buf).map (fun p => (p.1, distFormula p.2)) := by
  induction buf with
  | nil => rfl
  | cons p rest ih =>
    by_cases hq : ((lookupA reg p.1).isSome && !p.2.isEmpty) = true
    · have hne : p.2.isEmpty = false := by
        cases hI : p.2.isEmpty
        · rfl
        · rw [hI] at hq
          simp at hq
      have hq1 : (lookupA reg p.1).isSome = true := by
        cases hS : (lookupA reg p.1).isSome
        · rw [hS] at hq
          simp at hq
        · rfl
      simp only [distList, qualFilter, List.filterMap_cons, List.filter_cons, hne, hq1,
        Bool.not_false, Bool.and_true, estimateDistance, Option.map_some', List.map_cons,
        Bool.false_eq_true, if_false, eq_self_iff_true, if_true] at ih ⊢
      rw [ih]
    · simp only [distList, qualFilter, List.filterMap_cons, List.filter_cons, hq,
        if_false] at ih ⊢
      simpa [hq] using ih

theorem calculate_position_frame (st : State) :
    (calculate_position st).csi_buffer = st.csi_buffer ∧
    (calculate_position st).node_positions = st.node_positions ∧
    (calculate_position st).nodes = st.nodes := by
  simp only [calculate_position]
  split
  · split
    · exact ⟨rfl, rfl, rfl⟩
    · exact ⟨rfl, rfl, rfl⟩
  · exact ⟨rfl, rfl, rfl⟩

theorem calculate_position_published (st : State) :
    (calculate_position st).published = st.published ∨ 3 ≤ qualCount st := by
  by_cases h3 : 3 ≤ (distList st.node_positions st.csi_buffer).length
  · right
    rw [distList_eq] at h3
    simp only [qualCount, qualEntries]
    simpa using h3
  · left
    simp only [calculate_position]
    rw [if_neg h3]

theorem qualFilter_append_empty (reg : List (String × ℝ × ℝ))
    (buf : List (String × List Meas)) (mac : String) :
    qualFilter reg (buf ++ [(mac, [])]) = qualFilter reg buf := by
  simp [qualFilter, List.filter_append]

theorem dequePush_isEmpty (buf : List Meas) (m : Meas) :
    (dequePush buf m).isEmpty = false := by
  cases hd : dequePush buf m with
  | nil =>
    have hl := length_dequePush buf m
    rw [hd] at hl
    simp at hl
    omega
  | cons a t => rfl

theorem qualFilter_updAssoc_le (reg : List (String × ℝ × ℝ))
    (buf : List (String × List Meas)) (mac : String) (v : List Meas)
    (hv : v.isEmpty = false) :
    (qualFilter reg buf).length ≤ (qualFilter reg (updAssoc buf mac v)).length := by
  induction buf with
  | nil => simp [updAssoc, qualFilter]
  | cons p rest ih =>
    obtain ⟨k2, w⟩ := p
    simp only [updAssoc]
    split
    · next heq =>
      simp only [qualFilter, List.filter_cons]
      cases hS : (lookupA reg k2).isSome
      · simp [hS]
      · cases hw : w.isEmpty
        · simp [hS, hv, hw]
        · simp [hS, hv, hw]
    · next hne =>
      simp only [qualFilter, List.filter_cons] at ih ⊢
      cases hc : ((lookupA reg k2).isSome && !w.isEmpty) <;> simp [hc] <;> exact ih



theorem process_csi_data_full (st : State) (mac : String) (d : JObj) (ts rs ch rt : ℚ)
    (hr : reqFields d = some (ts, rs, ch, rt)) :
    process_csi_data st mac d = dataStep st mac ⟨ts, rs, d.csi_data.getD [], ch, rt⟩ := by
  simp only [process_csi_data, hr]

theorem qualCount_calculate_position (st : State) :
    qualCount (calculate_position st) = qualCount st := by
  simp only [qualCount, qualEntries, qualFilter, (calculate_position_frame st).1,
    (calculate_position_frame st).2.1]

theorem dataStep_unfold (st : State) (mac : String) (m : Meas) :
    dataStep st mac m =
      if 3 ≤ (newBuf st.csi_buffer mac m).length then
        calculate_position { st with csi_buffer := newBuf st.csi_buffer mac m }
      else { st with csi_buffer := newBuf st.csi_buffer mac m } := rfl

theorem newBuf_qual_le (reg : List (String × ℝ × ℝ)) (buf : List (String × List Meas))
    (mac : String) (m : Meas) :
    (qualFilter reg buf).length ≤ (qualFilter reg (newBuf buf mac m)).length := by
  have h1 : (qualFilter reg buf).length ≤
      (qualFilter reg (if (lookupA buf mac).isSome then buf else buf ++ [(mac, [])])).length := by
    by_cases hin : (lookupA buf mac).isSome
    · rw [if_pos hin]
    · rw [if_neg hin, qualFilter_append_empty]
  simp only [newBuf]
  exact le_trans h1 (qualFilter_updAssoc_le _ _ mac _ (dequePush_isEmpty _ _))

theorem dataStep_reg (st : State) (mac : String) (m : Meas) :
    (dataStep st mac m).node_positions = st.node_positions ∧
    (dataStep st mac m).nodes = st.nodes := by
  rw [dataStep_unfold]
  split
  · exact ⟨(calculate_position_frame _).2.1, (calculate_position_frame _).2.2⟩
  · exact ⟨rfl, rfl⟩

theorem qualCount_dataStep_le (st : State) (mac : String) (m : Meas) :
    qualCount st ≤ qualCount (dataStep st mac m) := by
  rw [dataStep_unfold]
  have hb : qualCount st ≤
      qualCount { st with csi_buffer := newBuf st.csi_buffer mac m } :=
    newBuf_qual_le st.node_positions st.csi_buffer mac m
  split
  · rw [qualCount_calculate_position]
    exact hb
  · exact hb

theorem dataStep_published (st : State) (mac : String) (m : Meas) :
    (dataStep st mac m).published = st.published ∨ 3 ≤ qualCount (dataStep st mac m) := by
  rw [dataStep_unfold]
  split
  · rcases calculate_position_published _ with he | hq
    · exact Or.inl he
    · right
      rw [qualCount_calculate_position]
      exact hq
  · exact Or.inl rfl

theorem on_message_other (st : State) (m : Msg) (d : JObj) (hp : m.payload = some d)
    (h1 : (topicSplit m.topic).getD 3 "" ≠ "data")
    (h2 : (topicSplit m.topic).getD 3 "" ≠ "stats") :
    on_message st m = st := by
  simp only [on_message, hp, if_neg h1, if_neg h2, ite_self]

theorem on_message_step (st : State) (m : Msg) :
    (on_message st m).node_positions = st.node_positions ∧
    qualCount st ≤ qualCount (on_message st m) ∧
    ((on_message st m).published = st.published ∨ 3 ≤ qualCount (on_message st m)) := by
  by_cases hlen : 4 ≤ (topicSplit m.topic).length
  · cases hp : m.payload with
    | none =>
      rw [on_message_none st m hp]
      exact ⟨rfl, le_refl _, Or.inl rfl⟩
    | some d =>
      by_cases h1 : (topicSplit m.topic).getD 3 "" = "data"
      · rw [on_message_data st m d hp h1 hlen]
        cases hr : reqFields d with
        | some q =>
          obtain ⟨ts, rs, ch, rt⟩ := q
          rw [process_csi_data_full st _ d ts rs ch rt hr]
          exact ⟨(dataStep_reg _ _ _).1, qualCount_dataStep_le _ _ _,
            dataStep_published _ _ _⟩
        | none =>
          rw [process_csi_data_missing st _ d hr]
          refine ⟨rfl, ?_, Or.inl rfl⟩
          by_cases hin : (lookupA st.csi_buffer ((topicSplit m.topic).getD 2 "")).isSome
          · rw [if_pos hin]
          · rw [if_neg hin]
            exact le_of_eq (congrArg List.length
              (qualFilter_append_empty st.node_positions st.csi_buffer _)).symm
      · by_cases h2 : (topicSplit m.topic).getD 3 "" = "stats"
        · rw [on_message_stats st m d hp h2 hlen]
          exact ⟨rfl, le_refl _, Or.inl rfl⟩
        · rw [on_message_other st m d hp h1 h2]
          exact ⟨rfl, le_refl _, Or.inl rfl⟩
  · rw [on_message_short st m (by omega)]
    exact ⟨rfl, le_refl _, Or.inl rfl⟩

theorem qualCount_run_le (msgs : List Msg) :
    ∀ st : State, qualCount st ≤ qualCount (run st msgs) := by
  induction msgs with
  | nil => intro st; exact le_refl _
  | cons m t ih =>
    intro st
    exact le_trans (on_message_step st m).2.1 (ih (on_message st m))

theorem run_published_of_waiting (msgs : List Msg) :
    ∀ st : State, qualCount (run st msgs) < 3 → (run st msgs).published = st.published := by
  induction msgs with
  | nil => intro st h; rfl
  | cons m t ih =>
    intro st h
    have hrun : run st (m :: t) = run (on_message st m) t := rfl
    rw [hrun] at h ⊢
    rw [ih _ h]
    rcases (on_message_step st m).2.2 with he | h3
    · exact he
    · have := le_trans h3 (qualCount_run_le t (on_message st m))
      omega

/-- C3: as long as fewer than 3 distinct nodes are both registered and hold
at least one buffered measurement (the state is WAITING), an ingest run from
startup publishes nothing. -/
theorem waiting_emits_nothing (reg : List (String × ℝ × ℝ)) (now : String) (msgs : List Msg)
    (h : qualCount (run (initState reg now) msgs) < 3) :
    (run (initState reg now) msgs).published = [] := by
  have hp := run_published_of_waiting msgs (initState reg now) h
  simpa [initState] using hp

/-- Witness for C3: two data-bearing registered nodes, nothing published. -/
theorem waiting_emits_nothing_witness :
    (run (initState regW "T")
      [⟨"whofi/csi/a/data", some jFull⟩, ⟨"whofi/csi/b/data", some jFull⟩]).published = [] :=
  waiting_emits_nothing regW "T" _ (by decide)

/-! ## Selection and solver evaluation -/

theorem pyDiv_of_den_zero (a b : ℝ) (h : b = 0) : pyDiv a b = PyFloat.nonfin := by
  rw [pyDiv, if_pos h]

theorem pyDiv_of_den_ne (a b : ℝ) (h : b ≠ 0) : pyDiv a b = PyFloat.fin (a / b) := by
  rw [pyDiv, if_neg h]

/-- C7: the `distances` dict lists exactly the qualifying nodes (registered,
non-empty buffer) in buffer insertion order; whenever a solve is attempted
(at least 3 distances) the solver's result depends only on the first three
pairs, and exactly 3 pairs are taken.  Selection is a pure function of the
ingested sequence, hence deterministic. -/
theorem solve_uses_first_three (st : State) :
    distList st.node_positions st.csi_buffer =
      (qualEntries st).map (fun p => (p.1, distFormula p.2)) ∧
    (3 ≤ (distList st.node_positions st.csi_buffer).length →
      trilaterate st.node_positions (distList st.node_positions st.csi_buffer) =
        trilaterate st.node_positions ((distList st.node_positions st.csi_buffer).take 3) ∧
      ((distList st.node_positions st.csi_buffer).take 3).length = 3) := by
  refine ⟨distList_eq _ _, fun h3 => ⟨?_, by rw [List.length_take]; omega⟩⟩
  rcases hd : distList st.node_positions st.csi_buffer with
    _ | ⟨⟨n1, r1⟩, _ | ⟨⟨n2, r2⟩, _ | ⟨⟨n3, r3⟩, rest⟩⟩⟩
  · rw [hd] at h3; simp at h3
  · rw [hd] at h3; simp at h3
  · rw [hd] at h3; simp at h3
  · rfl

/-- Witness for C7 at the three-node state `stW`. -/
theorem solve_uses_first_three_witness :
    trilaterate stW.node_positions (distList stW.node_positions stW.csi_buffer) =
      trilaterate stW.node_positions
        ((distList stW.node_positions stW.csi_buffer).take 3) ∧
    ((distList stW.node_positions stW.csi_buffer).take 3).length = 3 :=
  (solve_uses_first_three stW).2 (by decide)

/-- C1: with three collinear anchors the Cramer denominators are zero, but
numpy float division by zero yields non-finite values instead of raising, so
`trilaterate` returns a value (never `None`) and `calculate_position` still
publishes a (NaN-coordinate) position — two MQTT messages go out. -/
theorem collinear_solve_still_publishes :
    trilaterate regC [("n1", (5 : ℝ)), ("n2", 5), ("n3", 5)] =
      some (PyFloat.nonfin, PyFloat.nonfin) ∧
    (calculate_position stC).published.length = 2 := by
  constructor
  · have e1 : lookupA regC "n1" = some ((0 : ℝ), (0 : ℝ)) := rfl
    have e2 : lookupA regC "n2" = some ((5 : ℝ), (0 : ℝ)) := rfl
    have e3 : lookupA regC "n3" = some ((10 : ℝ), (0 : ℝ)) := rfl
    simp only [trilaterate, e1, e2, e3]
    rw [pyDiv_of_den_zero _ _ (by norm_num), pyDiv_of_den_zero _ _ (by norm_num)]
  · rfl

theorem trilaterate_symmetric_eval :
    trilaterate regT distT = some (PyFloat.fin 5, PyFloat.fin (15 / 4)) := by
  have e1 : lookupA regT "n1" = some ((0 : ℝ), (0 : ℝ)) := rfl
  have e2 : lookupA regT "n2" = some ((10 : ℝ), (0 : ℝ)) := rfl
  have e3 : lookupA regT "n3" = some ((5 : ℝ), (10 : ℝ)) := rfl
  have hd : distT = [("n1", (7.07 : ℝ)), ("n2", 7.07), ("n3", 7.07)] := rfl
  rw [hd]
  simp only [trilaterate, e1, e2, e3]
  rw [pyDiv_of_den_ne _ _ (by norm_num), pyDiv_of_den_ne _ _ (by norm_num)]
  norm_num

/-- C6 (amended): on anchors (0,0), (10,0), (5,10) with equal distances
7.07 the solve returns exactly (5, 3.75); the y-coordinate sits 0.21 away
from the claimed 3.54, so the result is near (5, 3.54) only for tolerances
of at least 0.21. -/
theorem symmetric_case_exact_result :
    trilaterate regT distT = some (PyFloat.fin 5, PyFloat.fin (15 / 4)) ∧
    |(15 / 4 : ℝ) - 3.54| = 21 / 100 :=
  ⟨trilaterate_symmetric_eval, by rw [abs_of_nonneg (by norm_num)]; norm_num⟩

/-- C6 counterexample: the solve returns (5, 3.75), whose y-coordinate is
not within 0.1 (a generous reading of "a small numeric tolerance" for a
value quoted as 3.54) of the claimed 3.54. -/
theorem symmetric_case_not_near_claimed :
    trilaterate regT distT = some (PyFloat.fin 5, PyFloat.fin (15 / 4)) ∧
    ¬ (|(15 / 4 : ℝ) - 3.54| ≤ 1 / 10) :=
  ⟨trilaterate_symmetric_eval, by rw [abs_of_nonneg (by norm_num)]; norm_num⟩
